import Mathlib

/-!
Shallow embedding of the DataAnalysisAgent repository (`app/state.py`,
`app/tools/dataframe.py`, `app/tools/stats.py`, `app/tools/visualization.py`,
`app/main.py`, `app/agent.py`) in Lean 4, together with theorems settling the
frozen claims about its specification.

Modelling conventions:
- A pandas cell value is modelled by `Value` (missing cells are `Value.null`;
  the embedding does not model IEEE floating point, so numeric cells are
  `Value.int`).
- A `pandas.DataFrame` is `DataFrame`: an ordered list of (name, dtype)
  columns plus row-major cell data.
- The process-wide mutable `STATE` of `app/state.py`, extended with the set of
  files written to `/tmp`, is `AppState`.  Every catalog operation is embedded
  as a state transformer `AppState → Except ToolError β × AppState`, making
  reads and writes of the shared state explicit.
- Python `ValueError`s raised by the operations are mapped to the constructors
  of `ToolError` according to their message.
- The floating-point statistics of `describe` and `corr` are not modelled;
  those operations return the exact sub-dataframe the statistics would be
  computed from, which is enough for the validation / error-path / frame
  claims.
-/

/-- A cell value of the tabular dataset.  `null` models a missing entry
(pandas `NaN`/`None` under `isna`). -/
inductive Value where
  | null
  | int (n : Int)
  | str (s : String)
  | bool (b : Bool)
deriving DecidableEq

/-- Python `str(v)` on a cell value, as used by `value_counts` to stringify
dictionary keys (`str(k)`); the pandas missing marker stringifies to "nan". -/
def Value.pyStr : Value → String
  | .null => "nan"
  | .int n => toString n
  | .str s => s
  | .bool b => if b then "True" else "False"

/-- A pandas column dtype, restricted to the kinds relevant here. -/
inductive Dtype where
  | int64
  | float64
  | object
  | boolDt
  | datetime64
deriving DecidableEq

/-- The string rendering `str(dtype)` used by `dataset_summary`. -/
def Dtype.toStr : Dtype → String
  | .int64 => "int64"
  | .float64 => "float64"
  | .object => "object"
  | .boolDt => "bool"
  | .datetime64 => "datetime64[ns]"

/-- Whether `select_dtypes(include="number")` keeps a column of this dtype. -/
def Dtype.isNumeric : Dtype → Bool
  | .int64 => true
  | .float64 => true
  | _ => false

/-- A `pandas.DataFrame`: ordered named, typed columns plus row-major cells. -/
structure DataFrame where
  cols : List (String × Dtype)
  rows : List (List Value)
deriving DecidableEq

/-- Well-formedness: every row has one cell per column (dataframes are
rectangular by construction in pandas). -/
def DataFrame.WF (df : DataFrame) : Prop :=
  ∀ r ∈ df.rows, r.length = df.cols.length

/-- Column names in order (`df.columns`). -/
def DataFrame.colNames (df : DataFrame) : List String :=
  df.cols.map Prod.fst

/-- Index of the first column with the given name (`df[c]` selects by name). -/
def DataFrame.colIdx (df : DataFrame) (c : String) : Nat :=
  df.colNames.findIdx (fun n => n == c)

/-- The cell values of column `c`, top to bottom (`df[c]`). -/
def DataFrame.colValues (df : DataFrame) (c : String) : List Value :=
  df.rows.map (fun r => r.getD (df.colIdx c) Value.null)

/-- The numeric sub-columns, in order (`df.select_dtypes(include="number")`). -/
def DataFrame.numericCols (df : DataFrame) : List (String × Dtype) :=
  df.cols.filter (fun p => p.2.isNumeric)

/-- The process-wide mutable application state: `STATE.df` and
`STATE.dataset_name` from `app/state.py`, extended with the list of files so
far written to the shared `/tmp` area (so that file-writing side effects are
observable in the embedding). -/
structure AppState where
  df : Option DataFrame
  dataset_name : Option String
  files : List String
deriving DecidableEq

/-- The `ValueError`s raised by the catalog operations, split by message. -/
inductive ToolError where
  | noDataset
  | unknownColumn (c : String)
  | invalidColumns (cs : List String)
  | unsupportedMethod
  | insufficientNumericColumns
  | unsupportedKind
  | missingSecondaryColumn
deriving DecidableEq

/-! ### Python dictionary and string helpers -/

/-- One insertion into a Python `dict` (insertion order preserved, an existing
key is overwritten in place). -/
def pyDictInsert {β : Type} (d : List (String × β)) (k : String) (v : β) :
    List (String × β) :=
  if d.any (fun p => p.1 == k) then
    d.map (fun p => if p.1 == k then (k, v) else p)
  else
    d ++ [(k, v)]

/-- A Python `dict` built from a sequence of key/value pairs, as produced by a
dict comprehension: later duplicate keys overwrite earlier ones. -/
def pyDict {β : Type} (ps : List (String × β)) : List (String × β) :=
  ps.foldl (fun d p => pyDictInsert d p.1 p.2) []

/-- Python `str.isspace` characters relevant to `str.strip()`. -/
def isPySpace (c : Char) : Bool :=
  c == ' ' || c == '\t' || c == '\n' || c == '\r' || c == '\x0b' || c == '\x0c'

/-- Python `str.strip()` on a character list. -/
def pyStrip (s : List Char) : List Char :=
  ((s.dropWhile isPySpace).reverse.dropWhile isPySpace).reverse

/-- Python `str.strip()` on a `String`. -/
def pyStripStr (s : String) : String :=
  String.mk (pyStrip s.toList)

/-- Python `str.lower()` (character-wise ASCII lowercasing). -/
def pyLowerStr (s : String) : String :=
  String.mk (s.toList.map Char.toLower)

/-- Python substring test `pat in s` on character lists. -/
def containsSeq (pat : List Char) : List Char → Bool
  | [] => pat.isEmpty
  | c :: rest => pat.isPrefixOf (c :: rest) || containsSeq pat rest

/-! ### `app/tools/dataframe.py` -/

/-- `dataset_summary`'s return value: rows, columns, ordered column names,
column-to-dtype-string mapping, and the dataset name. -/
structure SummaryResult where
  rows : Nat
  columns : Nat
  column_names : List String
  dtypes : List (String × String)
  dataset_name : Option String
deriving DecidableEq

/-- `dataset_summary()` from `app/tools/dataframe.py`: raises if no dataset is
loaded, otherwise returns shape, column names, stringified dtypes and the
dataset name.  The state is read but never written. -/
def dataset_summary (st : AppState) : Except ToolError SummaryResult × AppState :=
  match st.df with
  | none => (.error .noDataset, st)
  | some df =>
      (.ok { rows := df.rows.length
             columns := df.cols.length
             column_names := df.colNames
             dtypes := pyDict (df.cols.map (fun p => (p.1, p.2.toStr)))
             dataset_name := st.dataset_name }, st)

/-- One record of `DataFrame.to_dict(orient="records")`: a Python dict mapping
column name to cell value, keys in column order. -/
def DataFrame.toRecord (df : DataFrame) (r : List Value) : List (String × Value) :=
  pyDict (df.colNames.zip r)

/-- `sample_rows(n)` from `app/tools/dataframe.py`: `n = max(1, min(int(n), 20))`,
then the first `n` rows of the dataframe as records (`df.head(n)`). -/
def sample_rows (n : Int) (st : AppState) :
    Except ToolError (List (List (String × Value))) × AppState :=
  match st.df with
  | none => (.error .noDataset, st)
  | some df =>
      let k : Nat := (max 1 (min n 20)).toNat
      (.ok ((df.rows.take k).map df.toRecord), st)

/-- `find_columns(keyword)` from `app/tools/dataframe.py`: the keyword is
stripped and lowercased; an empty keyword yields an empty list, otherwise the
columns whose lowercased name contains the keyword, in original order. -/
def find_columns (keyword : String) (st : AppState) :
    Except ToolError (List String) × AppState :=
  match st.df with
  | none => (.error .noDataset, st)
  | some df =>
      let kw := pyLowerStr (pyStripStr keyword)
      if kw = "" then (.ok [], st)
      else (.ok (df.colNames.filter (fun c => containsSeq kw.toList (pyLowerStr c).toList)), st)

/-! ### `app/tools/stats.py` -/

/-- The sub-dataframe `df[columns]`: the named columns, in the requested
order, with their dtypes and cell values. -/
def DataFrame.selectCols (df : DataFrame) (cs : List String) : DataFrame :=
  { cols := cs.map (fun c => (c, ((df.cols.map Prod.snd).getD (df.colIdx c) Dtype.object)))
    rows := df.rows.map (fun r => cs.map (fun c => r.getD (df.colIdx c) Value.null)) }

/-- The value of `describe_columns`: the exact sub-dataframe that
`describe(include="all")` is computed over.  The floating-point statistics
themselves (mean, std, quartiles) are not modelled. -/
structure DescribeResult where
  data : DataFrame
deriving DecidableEq

/-- `describe_columns(columns)` from `app/tools/stats.py`: raises if no
dataset is loaded, raises listing the invalid columns if any requested column
is absent, and otherwise describes `df[columns]` (or the whole dataframe when
no subset is given). -/
def describe_columns (columns : Option (List String)) (st : AppState) :
    Except ToolError DescribeResult × AppState :=
  match st.df with
  | none => (.error .noDataset, st)
  | some df =>
      match columns with
      | none => (.ok ⟨df⟩, st)
      | some cs =>
          let missing := cs.filter (fun c => !(df.colNames.contains c))
          if missing.isEmpty then (.ok ⟨df.selectCols cs⟩, st)
          else (.error (.invalidColumns missing), st)

/-- `missing_values()` from `app/tools/stats.py`: the per-column count of
missing cells, `{col: int(df[col].isna().sum()) for col in df.columns}`. -/
def missing_values (st : AppState) :
    Except ToolError (List (String × Nat)) × AppState :=
  match st.df with
  | none => (.error .noDataset, st)
  | some df =>
      (.ok (pyDict (df.colNames.map (fun c => (c, (df.colValues c).count Value.null)))), st)

/-- The distinct values of a list in first-seen order (the groups formed by
`Series.value_counts(dropna=False)` before sorting). -/
def firstSeen : List Value → List Value
  | [] => []
  | v :: vs => v :: firstSeen (vs.filter (fun w => !(w == v)))
termination_by xs => xs.length
decreasing_by
  simp only [List.length_cons]
  exact Nat.lt_succ_of_le (List.length_filter_le _ _)

/-- The multiset of (value, multiplicity) groups of a column, keyed by the
distinct values in first-seen order. -/
def tally (xs : List Value) : List (Value × Nat) :=
  (firstSeen xs).map (fun v => (v, xs.count v))

/-- The groups of `Series.value_counts(dropna=False)` sorted by descending
count (`value_counts` sorts most-frequent first). -/
def sortedTally (xs : List Value) : List (Value × Nat) :=
  (tally xs).mergeSort (fun a b => b.2 ≤ a.2)

/-- `value_counts(column, limit)` from `app/tools/stats.py`: raises if no
dataset is loaded or the column is absent; otherwise clamps the limit to
`max(1, min(int(limit), 20))`, takes the top groups of
`df[column].value_counts(dropna=False).head(limit)` and stringifies the keys
into a Python dict. -/
def value_counts (column : String) (limit : Int) (st : AppState) :
    Except ToolError (List (String × Nat)) × AppState :=
  match st.df with
  | none => (.error .noDataset, st)
  | some df =>
      if df.colNames.contains column then
        let lim : Nat := (max 1 (min limit 20)).toNat
        let vc := (sortedTally (df.colValues column)).take lim
        (.ok (pyDict (vc.map (fun p => (p.1.pyStr, p.2)))), st)
      else (.error (.unknownColumn column), st)

/-- The value of `correlation_matrix`: the validated method together with the
numeric sub-columns the matrix is computed over.  The floating-point
correlation coefficients themselves are not modelled. -/
structure CorrResult where
  method : String
  data : List (String × List Value)
deriving DecidableEq

/-- `correlation_matrix(method)` from `app/tools/stats.py`: the method is
defaulted (`method or "pearson"`), stripped and lowercased; an unsupported
method raises, fewer than 2 numeric columns raises, and otherwise the matrix
over `df.select_dtypes(include="number")` is returned. -/
def correlation_matrix (method : String) (st : AppState) :
    Except ToolError CorrResult × AppState :=
  match st.df with
  | none => (.error .noDataset, st)
  | some df =>
      let m := pyLowerStr (pyStripStr (if method = "" then "pearson" else method))
      if (["pearson", "spearman", "kendall"].contains m) then
        if df.numericCols.length < 2 then (.error .insufficientNumericColumns, st)
        else
          (.ok { method := m
                 data := df.numericCols.map (fun p => (p.1, df.colValues p.1)) }, st)
      else (.error .unsupportedMethod, st)

/-! ### `app/tools/visualization.py` -/

/-- The restricted plot kinds (`ALLOWED_PLOTS`). -/
def ALLOWED_PLOTS : List String := ["hist", "box", "scatter", "bar"]

/-- Python truthiness of the optional `column_y` argument (`not column_y` is
true for both `None` and the empty string). -/
def pyTruthyOptStr (y : Option String) : Bool :=
  !(y.getD "" == "")

/-- `plot(kind, column_x, column_y)` from `app/tools/visualization.py`.  The
kind is defaulted, stripped and lowercased, then validated against
`ALLOWED_PLOTS`; `column_x` must exist; for `"scatter"` a truthy `column_y` is
required and must exist.  On success one new uniquely named PNG file
`/tmp/plot_<hex>.png` is written (the `uuid4().hex` suffix is passed in as
`hexId`, making the file-name source of randomness explicit) and its path is
returned; the drawing itself (matplotlib) has no effect on the application
state beyond that one file. -/
def plot (kind : String) (column_x : String) (column_y : Option String)
    (hexId : String) (st : AppState) : Except ToolError String × AppState :=
  match st.df with
  | none => (.error .noDataset, st)
  | some df =>
      let k := pyLowerStr (pyStripStr (if kind = "" then "" else kind))
      if !(ALLOWED_PLOTS.contains k) then (.error .unsupportedKind, st)
      else if !(df.colNames.contains column_x) then (.error (.unknownColumn column_x), st)
      else if k = "scatter" && !(pyTruthyOptStr column_y) then
        (.error .missingSecondaryColumn, st)
      else if k = "scatter" && !(df.colNames.contains (column_y.getD "")) then
        (.error (.unknownColumn (column_y.getD "")), st)
      else
        let filename := "/tmp/plot_" ++ hexId ++ ".png"
        (.ok filename, { st with files := st.files ++ [filename] })

/-! ### The artifact extractor of `chat_handler` (`app/main.py`)

The regular expressions of `chat_handler` are modelled exactly, as scanners
over character lists:
- `/tmp/plot_[a-f0-9]+\.png` — `matchPlotAt` / `findPlotPaths`;
- `sandbox:(/tmp/plot_[a-f0-9]+\.png)` — `matchSandboxAt` / `findSandboxPaths`
  (`re.findall` returns the capture group);
- `!\[.*?\]\(sandbox:/tmp/.*?\)` — `matchMdAt` / `subMd` (a lazy `.*?` never
  crosses a newline and stops at the first position where the following
  literal matches);
- `sandbox:/tmp/plot_[a-f0-9]+\.png` — `matchSbPlotAt` / `subSbPlot`.
`re.findall` and `re.sub` scan left to right and continue after the end of
each non-overlapping match, which is what the recursions below do.  Since
`[a-f0-9]` never matches `.`, `p`, `n` or `g`, the greedy `[a-f0-9]+` is
equivalent to taking the maximal run of hex characters. -/

/-- The character class `[a-f0-9]`. -/
def hexOrDigit (c : Char) : Bool :=
  ('0' ≤ c && c ≤ '9') || ('a' ≤ c && c ≤ 'f')

/-- Length of the match of `/tmp/plot_[a-f0-9]+\.png` anchored at the start
of `s`, if any. -/
def matchPlotAt (s : List Char) : Option Nat :=
  if s.take 10 = "/tmp/plot_".toList then
    if 1 ≤ ((s.drop 10).takeWhile hexOrDigit).length ∧
        (s.drop (10 + ((s.drop 10).takeWhile hexOrDigit).length)).take 4 = ".png".toList then
      some (10 + ((s.drop 10).takeWhile hexOrDigit).length + 4)
    else none
  else none

/-- The scan of `re.findall(r"/tmp/plot_[a-f0-9]+\.png", s)`, written with an
explicit step budget so that the recursion is structural: every step either
consumes a whole match (at least 15 characters) or advances one character, so
a budget of `s.length` is always enough. -/
def findPlotPathsF : Nat → List Char → List (List Char)
  | 0, _ => []
  | fuel + 1, s =>
      match s with
      | [] => []
      | c :: rest =>
          match matchPlotAt (c :: rest) with
          | some n => (c :: rest).take n :: findPlotPathsF fuel ((c :: rest).drop n)
          | none => findPlotPathsF fuel rest

/-- `re.findall(r"/tmp/plot_[a-f0-9]+\.png", s)`. -/
def findPlotPaths (s : List Char) : List (List Char) :=
  findPlotPathsF s.length s

/-- Length of the match and content of the capture group of
`sandbox:(/tmp/plot_[a-f0-9]+\.png)` anchored at the start of `s`, if any. -/
def matchSandboxAt (s : List Char) : Option (Nat × List Char) :=
  if s.take 8 = "sandbox:".toList then
    match matchPlotAt (s.drop 8) with
    | some n => some (8 + n, (s.drop 8).take n)
    | none => none
  else none

/-- The scan of `re.findall(r"sandbox:(/tmp/plot_[a-f0-9]+\.png)", s)` with
an explicit step budget (see `findPlotPathsF`). -/
def findSandboxPathsF : Nat → List Char → List (List Char)
  | 0, _ => []
  | fuel + 1, s =>
      match s with
      | [] => []
      | c :: rest =>
          match matchSandboxAt (c :: rest) with
          | some p => p.2 :: findSandboxPathsF fuel ((c :: rest).drop p.1)
          | none => findSandboxPathsF fuel rest

/-- `re.findall(r"sandbox:(/tmp/plot_[a-f0-9]+\.png)", s)` (the captured
groups). -/
def findSandboxPaths (s : List Char) : List (List Char) :=
  findSandboxPathsF s.length s

/-- The least offset `j` in `s` such that `target` starts at `j` and no
newline occurs before `j` (the span a lazy `.*?` may consume before a literal
`target`). -/
def findLit (target : List Char) : List Char → Option Nat
  | [] => if target.isEmpty then some 0 else none
  | c :: rest =>
      if target.isPrefixOf (c :: rest) then some 0
      else if c = '\n' then none
      else (findLit target rest).map (· + 1)

/-- Length of the match of `!\[.*?\]\(sandbox:/tmp/.*?\)` anchored at the
start of `s`, if any. -/
def matchMdAt (s : List Char) : Option Nat :=
  if s.take 2 = "![".toList then
    match findLit "](sandbox:/tmp/".toList (s.drop 2) with
    | some j =>
        match findLit [')'] ((s.drop 2).drop (j + 15)) with
        | some k => some (2 + j + 15 + k + 1)
        | none => none
    | none => none
  else none

/-- The scan of `re.sub(r"!\[.*?\]\(sandbox:/tmp/.*?\)", "", s)` with an
explicit step budget: every match is at least 18 characters long, so a budget
of `s.length` is always enough and the zero-budget case is never reached on
the wrapper's calls. -/
def subMdF : Nat → List Char → List Char
  | 0, s => s
  | fuel + 1, s =>
      match s with
      | [] => []
      | c :: rest =>
          match matchMdAt (c :: rest) with
          | some n => subMdF fuel ((c :: rest).drop n)
          | none => c :: subMdF fuel rest

/-- `re.sub(r"!\[.*?\]\(sandbox:/tmp/.*?\)", "", s)`. -/
def subMd (s : List Char) : List Char :=
  subMdF s.length s

/-- Length of the match of `sandbox:/tmp/plot_[a-f0-9]+\.png` anchored at the
start of `s`, if any. -/
def matchSbPlotAt (s : List Char) : Option Nat :=
  if s.take 8 = "sandbox:".toList then
    match matchPlotAt (s.drop 8) with
    | some n => some (8 + n)
    | none => none
  else none

/-- The scan of `re.sub(r"sandbox:/tmp/plot_[a-f0-9]+\.png", "", s)` with an
explicit step budget (see `subMdF`). -/
def subSbPlotF : Nat → List Char → List Char
  | 0, s => s
  | fuel + 1, s =>
      match s with
      | [] => []
      | c :: rest =>
          match matchSbPlotAt (c :: rest) with
          | some n => subSbPlotF fuel ((c :: rest).drop n)
          | none => c :: subSbPlotF fuel rest

/-- `re.sub(r"sandbox:/tmp/plot_[a-f0-9]+\.png", "", s)`. -/
def subSbPlot (s : List Char) : List Char :=
  subSbPlotF s.length s

/-- The scan of Python `s.replace("sandbox:", "")` with an explicit step
budget (every replacement consumes 8 characters). -/
def replaceSandboxF : Nat → List Char → List Char
  | 0, s => s
  | fuel + 1, s =>
      match s with
      | [] => []
      | c :: rest =>
          if (c :: rest).take 8 = "sandbox:".toList then
            replaceSandboxF fuel ((c :: rest).drop 8)
          else c :: replaceSandboxF fuel rest

/-- Python `s.replace("sandbox:", "")`. -/
def replaceSandbox (s : List Char) : List Char :=
  replaceSandboxF s.length s

/-- The fixed fallback caption substituted when stripping empties the text. -/
def fallbackCaption : List Char := "I generated a plot for you. See below.".toList

/-- The artifact-extraction stage of `chat_handler` (`app/main.py`, the
`path_patterns` loop): scans the agent's final text for the first chart-file
reference; on a hit it removes any `sandbox:` prefix from the path, strips the
sandbox-prefixed markdown images and sandbox-prefixed paths from the text,
trims whitespace, substitutes the fallback caption if nothing remains, and
returns `(display text, some path)`; with no hit the text is returned
unchanged with no path. -/
def extractArtifact (response : List Char) : List Char × Option (List Char) :=
  match findPlotPaths response with
  | m :: _ =>
      let path := replaceSandbox m
      let d := pyStrip (subSbPlot (subMd response))
      (if d = [] then fallbackCaption else d, some path)
  | [] =>
      match findSandboxPaths response with
      | m :: _ =>
          let path := replaceSandbox m
          let d := pyStrip (subSbPlot (subMd response))
          (if d = [] then fallbackCaption else d, some path)
      | [] => (response, none)

/-! ### The history adapter of `chat_handler` (`app/main.py`) -/

/-- A raw entry of the Gradio `chat_history` as seen by `chat_handler`:
either a dict (whose `role` / `content` keys may be absent, modelled with
`Option`), a 2-element list or tuple (whose second component may be Python
`None`, modelled with `Option`), or a value of any other shape. -/
inductive RawItem where
  | dictItem (role : Option String) (content : Option String)
  | pairItem (user : String) (bot : Option String)
  | otherItem
deriving DecidableEq

/-- The messages one raw entry contributes to the LangChain history, or the
`KeyError` a dict entry with a missing key raises.  A dict maps role `"user"`
to `"human"` and any other role to `"ai"`; a pair contributes the user
message and, only if the bot message is truthy (present and non-empty), the
bot message; any other shape contributes nothing. -/
def histEntry : RawItem → Except String (List (String × String))
  | .dictItem (some r) (some c) => .ok [((if r = "user" then "human" else "ai"), c)]
  | .dictItem _ _ => .error "KeyError"
  | .pairItem u (some b) =>
      .ok (if b = "" then [("human", u)] else [("human", u), ("ai", b)])
  | .pairItem u none => .ok [("human", u)]
  | .otherItem => .ok []

/-- The history-normalization loop of `chat_handler` (`app/main.py`): raw
entries are processed in order; each contributes its messages, and a raised
`KeyError` propagates (the loop body is not wrapped in a handler, so the
whole turn aborts). -/
def toLangchainHistory : List RawItem → Except String (List (String × String))
  | [] => .ok []
  | it :: rest => do
      let h ← histEntry it
      let t ← toLangchainHistory rest
      .ok (h ++ t)

/-! ### The planning loop (`app/agent.py`)

Modelled from the spec: the planning loop itself is LangChain's
`AgentExecutor`, which is not part of this repository's sources;
`app/agent.py` only configures it (`max_iterations=10`,
`handle_parsing_errors=True`, temperature 0.0).  The state machine below
follows spec section 4.4: per planning session, the planner receives the
scratchpad and either emits a final answer (session DONE) or a batch of
operation calls, which are executed in emission order and appended with their
observations to the scratchpad; the iteration counter increments on every
PLANNING-to-EXECUTING cycle and when it would exceed the fixed cap of 10 the
session ends, DONE with a best-effort answer if one exists or FAILED
otherwise. -/

/-- An operation call chosen by the planner: a catalog operation name and a
flat argument mapping. -/
structure OpCall where
  name : String
  args : List (String × String)

/-- Modelled from the spec: one planner step either emits a final textual
answer or one or more operation calls. -/
inductive PlannerOutput where
  | answer (text : String)
  | opCalls (calls : List OpCall)

/-- The scratchpad: operation calls paired with their observations, in
execution order. -/
abbrev Scratchpad := List (OpCall × String)

/-- Terminal status of a planning session. -/
inductive SessionStatus where
  | done
  | failed
deriving DecidableEq

/-- The outcome of a planning session: terminal status, the final answer if
any, and how many planner/operation cycles ran. -/
structure SessionResult where
  status : SessionStatus
  answer : Option String
  iterations : Nat
deriving DecidableEq

/-- The fixed iteration cap (`max_iterations=10` in `build_agent`). -/
def iterationCap : Nat := 10

/-- Modelled from the spec: the bounded planning loop.  `budget` is the
number of planner/operation cycles still allowed and `iters` the number
already run.  With the budget exhausted and no answer produced, the session
FAILS; a final answer ends the session DONE; otherwise the emitted calls are
executed in order (`exec` gives each observation), the scratchpad grows, the
counter increments and the loop re-enters planning. -/
def runLoop (planner : Scratchpad → PlannerOutput) (exec : OpCall → String) :
    Nat → Scratchpad → Nat → SessionResult
  | 0, _, iters => { status := .failed, answer := none, iterations := iters }
  | budget + 1, pad, iters =>
      match planner pad with
      | .answer t => { status := .done, answer := some t, iterations := iters }
      | .opCalls cs =>
          runLoop planner exec budget (pad ++ cs.map (fun c => (c, exec c))) (iters + 1)

/-- Modelled from the spec: one planning session starts in PLANNING with an
empty scratchpad, zero iterations and the full iteration cap. -/
def runSession (planner : Scratchpad → PlannerOutput) (exec : OpCall → String) :
    SessionResult :=
  runLoop planner exec iterationCap [] 0

/-! ### Concrete fixtures used by witnesses and counterexamples -/

/-- A one-row, one-numeric-column dataset. -/
def dfTiny : DataFrame := ⟨[("a", Dtype.int64)], [[Value.int 1]]⟩

/-- The same dataset with a different cell value (same metadata). -/
def dfTiny2 : DataFrame := ⟨[("a", Dtype.int64)], [[Value.int 2]]⟩

/-- Application state holding `dfTiny`. -/
def stTiny : AppState := ⟨some dfTiny, some "tiny.csv", []⟩

/-- Application state holding `dfTiny2` under the same name. -/
def stTiny2 : AppState := ⟨some dfTiny2, some "tiny.csv", []⟩

/-- A three-row text column with one missing value. -/
def dfNull : DataFrame :=
  ⟨[("a", Dtype.object)], [[Value.null], [Value.str "x"], [Value.str "x"]]⟩

/-- Application state holding `dfNull`. -/
def stNull : AppState := ⟨some dfNull, some "null.csv", []⟩

/-! ## Theorems settling the claims -/

/-- C1: for every planning session, the loop terminates: a planner that never
stops emitting operation calls causes the session to stop after the fixed
iteration cap of 10 planner/operation cycles, ending with a best-effort
answer (DONE) or a failure (FAILED), never looping indefinitely. -/
theorem planning_loop_stops_at_cap
    (planner : Scratchpad → PlannerOutput) (exec : OpCall → String)
    (h : ∀ pad, ∃ cs, planner pad = .opCalls cs) :
    (runSession planner exec).iterations = 10 ∧
    ((runSession planner exec).status = .done ∨
      (runSession planner exec).status = .failed) := by
  have key : ∀ budget pad iters, runLoop planner exec budget pad iters =
      { status := .failed, answer := none, iterations := iters + budget } := by
    intro budget
    induction budget with
    | zero => intro pad iters; simp [runLoop]
    | succ b ih =>
        intro pad iters
        obtain ⟨cs, hcs⟩ := h pad
        simp only [runLoop, hcs, ih, SessionResult.mk.injEq, true_and, and_true]
        omega
  refine ⟨?_, Or.inr ?_⟩ <;> simp [runSession, key, iterationCap]

/-- Witness for C1 at a concrete planner that always emits one operation
call. -/
theorem planning_loop_stops_at_cap_witness :
    (runSession (fun _ => .opCalls [⟨"dataset_summary", []⟩]) (fun _ => "ok")).iterations = 10 ∧
    ((runSession (fun _ => .opCalls [⟨"dataset_summary", []⟩]) (fun _ => "ok")).status = .done ∨
      (runSession (fun _ => .opCalls [⟨"dataset_summary", []⟩]) (fun _ => "ok")).status = .failed) :=
  planning_loop_stops_at_cap _ _ (fun _ => ⟨_, rfl⟩)

/-- C9: `dataset_summary` returns only shape/type/name metadata and never
row-level values: two loaded datasets agreeing on row count, columns (names,
order and dtypes) and dataset name produce identical outputs regardless of
cell values. -/
theorem dataset_summary_metadata_only
    (st1 st2 : AppState) (df1 df2 : DataFrame)
    (h1 : st1.df = some df1) (h2 : st2.df = some df2)
    (hrows : df1.rows.length = df2.rows.length)
    (hcols : df1.cols = df2.cols)
    (hname : st1.dataset_name = st2.dataset_name) :
    (dataset_summary st1).1 = (dataset_summary st2).1 := by
  simp [dataset_summary, h1, h2, DataFrame.colNames, hrows, hcols, hname]

/-- Witness for C9 at two concrete states that differ only in a cell value. -/
theorem dataset_summary_metadata_only_witness :
    (dataset_summary stTiny).1 = (dataset_summary stTiny2).1 :=
  dataset_summary_metadata_only stTiny stTiny2 dfTiny dfTiny2 rfl rfl rfl rfl rfl

/-- C6: for every loaded dataset with fewer than 2 numeric columns and any
requested correlation method (any string the code normalizes into the
supported set), `correlation_matrix` raises `InsufficientNumericColumns`. -/
theorem correlation_matrix_insufficient_numeric
    (st : AppState) (df : DataFrame) (m : String)
    (hdf : st.df = some df)
    (hm : (["pearson", "spearman", "kendall"] : List String).contains
      (pyLowerStr (pyStripStr (if m = "" then "pearson" else m))) = true)
    (hnum : df.numericCols.length < 2) :
    correlation_matrix m st = (.error .insufficientNumericColumns, st) := by
  simp only [correlation_matrix, hdf]
  rw [if_pos hm, if_pos hnum]

/-- Witness for C6: `dfTiny` has exactly 1 numeric column. -/
theorem correlation_matrix_insufficient_numeric_witness :
    correlation_matrix "pearson" stTiny = (.error .insufficientNumericColumns, stTiny) :=
  correlation_matrix_insufficient_numeric stTiny dfTiny "pearson" rfl (by decide) (by decide)

/-- C8: for every loaded dataset and existing primary column, calling the
chart operation with kind "scatter" and no secondary column raises
`MissingSecondaryColumn`. -/
theorem plot_scatter_missing_secondary
    (st : AppState) (df : DataFrame) (x hexId : String)
    (hdf : st.df = some df) (hx : df.colNames.contains x = true) :
    plot "scatter" x none hexId st = (.error .missingSecondaryColumn, st) := by
  have hk : pyLowerStr (pyStripStr "scatter") = "scatter" := by decide
  have hx2 : x ∈ df.colNames := by simpa using hx
  simp [plot, hdf, hk, hx2, pyTruthyOptStr, ALLOWED_PLOTS]

/-- Witness for C8 at a concrete state and column. -/
theorem plot_scatter_missing_secondary_witness :
    plot "scatter" "a" none "ff00" stTiny = (.error .missingSecondaryColumn, stTiny) :=
  plot_scatter_missing_secondary stTiny dfTiny "a" "ff00" rfl (by decide)

/-- C4 counterexample: on the one-row dataset `dfTiny`, `sample_rows(5)`
returns a single row, not `max(1, min(5, 20)) = 5` rows as the claim
requires for every loaded dataset. -/
theorem sample_rows_cap_claim_cex :
    (sample_rows 5 stTiny).1 = .ok [[("a", Value.int 1)]] ∧
    ([[("a", Value.int 1)]] : List (List (String × Value))).length ≠
      (max 1 (min (5 : Int) 20)).toNat :=
  ⟨rfl, by decide⟩

/-- C4 (amended): `sample_rows(n)` returns the first
`min(max(1, min(n, 20)), row count)` rows of the dataset — the clamp applies
to the request, but `head` cannot return more rows than the dataset has. -/
theorem sample_rows_clamped_head
    (st : AppState) (df : DataFrame) (n : Int) (hdf : st.df = some df) :
    (sample_rows n st).1 =
      .ok ((df.rows.take (max 1 (min n 20)).toNat).map df.toRecord) ∧
    ∀ recs, (sample_rows n st).1 = .ok recs →
      recs.length = min (max 1 (min n 20)).toNat df.rows.length := by
  refine ⟨by simp [sample_rows, hdf], ?_⟩
  intro recs h
  simp only [sample_rows, hdf, Except.ok.injEq, Prod.fst] at h
  rw [← h]
  simp [List.length_take]

/-- Witness for C4 (amended) at a concrete state and request. -/
theorem sample_rows_clamped_head_witness :
    (sample_rows 5 stTiny).1 =
      .ok ((dfTiny.rows.take (max 1 (min (5 : Int) 20)).toNat).map dfTiny.toRecord) ∧
    ∀ recs, (sample_rows 5 stTiny).1 = .ok recs →
      recs.length = min (max 1 (min (5 : Int) 20)).toNat dfTiny.rows.length :=
  sample_rows_clamped_head stTiny dfTiny 5 rfl

/-- Whether a raw dict entry carries both the `role` and `content` keys (the
dict shape the adapter reads without a `KeyError`); non-dict entries never
raise. -/
def RawItem.keysOk : RawItem → Bool
  | .dictItem (some _) (some _) => true
  | .dictItem _ _ => false
  | _ => true

/-- C7 counterexample: a transcript entry that is a dict missing its `role`
key raises `KeyError`, aborting the whole transcript, instead of being
skipped as the claim requires of every raw transcript. -/
theorem history_adapter_claim_cex :
    toLangchainHistory [RawItem.dictItem none (some "hi")] = .error "KeyError" := rfl

/-- Auxiliary: an entry with well-formed keys never raises. -/
theorem histEntry_ok {i : RawItem} (h : i.keysOk = true) :
    ∃ l, histEntry i = .ok l := by
  cases i with
  | dictItem role content =>
      cases role with
      | none => simp [RawItem.keysOk] at h
      | some r =>
          cases content with
          | none => simp [RawItem.keysOk] at h
          | some c => exact ⟨_, rfl⟩
  | pairItem u b =>
      cases b with
      | none => exact ⟨_, rfl⟩
      | some s => exact ⟨_, rfl⟩
  | otherItem => exact ⟨_, rfl⟩

/-- C7 (amended): the adapter keeps chronological order and never raises on
transcripts whose dict entries carry both keys — a paired entry with an
absent assistant half contributes only the user message, and an entry of
unrecognized top-level shape is skipped — but a dict entry missing its
`role` or `content` key raises a `KeyError` that aborts the transcript. -/
theorem history_adapter_permissive (items : List RawItem) (u : String)
    (h : ∀ i ∈ items, i.keysOk = true) :
    (∃ msgs, toLangchainHistory items = .ok msgs) ∧
    toLangchainHistory (RawItem.pairItem u none :: items) =
      (toLangchainHistory items).map (fun msgs => ("human", u) :: msgs) ∧
    toLangchainHistory (RawItem.otherItem :: items) = toLangchainHistory items := by
  refine ⟨?_, ?_, ?_⟩
  · induction items with
    | nil => exact ⟨[], rfl⟩
    | cons it rest ih =>
        obtain ⟨l, hl⟩ := histEntry_ok (h it (by simp))
        obtain ⟨msgs, hmsgs⟩ := ih (fun i hi => h i (by simp [hi]))
        exact ⟨l ++ msgs, by simp [toLangchainHistory, hl, hmsgs, Bind.bind, Except.bind]⟩
  · cases hh : toLangchainHistory items with
    | ok msgs => simp [toLangchainHistory, histEntry, hh, Except.map, Bind.bind, Except.bind]
    | error e => simp [toLangchainHistory, histEntry, hh, Except.map, Bind.bind, Except.bind]
  · cases hh : toLangchainHistory items with
    | ok msgs => simp [toLangchainHistory, histEntry, hh, Bind.bind, Except.bind]
    | error e => simp [toLangchainHistory, histEntry, hh, Bind.bind, Except.bind]

/-- Witness for C7 (amended) at a concrete transcript. -/
theorem history_adapter_permissive_witness :
    (∃ msgs, toLangchainHistory [RawItem.pairItem "hi" (some "yo"), RawItem.otherItem] = .ok msgs) ∧
    toLangchainHistory (RawItem.pairItem "q" none ::
        [RawItem.pairItem "hi" (some "yo"), RawItem.otherItem]) =
      (toLangchainHistory [RawItem.pairItem "hi" (some "yo"), RawItem.otherItem]).map
        (fun msgs => ("human", "q") :: msgs) ∧
    toLangchainHistory (RawItem.otherItem ::
        [RawItem.pairItem "hi" (some "yo"), RawItem.otherItem]) =
      toLangchainHistory [RawItem.pairItem "hi" (some "yo"), RawItem.otherItem] :=
  history_adapter_permissive [RawItem.pairItem "hi" (some "yo"), RawItem.otherItem] "q"
    (by decide)

/-- C3: every catalog operation leaves the dataset store (the active
dataframe and dataset name) unchanged whether it returns a value or raises;
only the plot operation has any side effect, namely appending one new file on
success. -/
theorem catalog_ops_frame (st : AppState) (n lim : Int) (kw c m k x hexId : String)
    (cols : Option (List String)) (y : Option String) :
    (dataset_summary st).2 = st ∧
    (sample_rows n st).2 = st ∧
    (find_columns kw st).2 = st ∧
    (describe_columns cols st).2 = st ∧
    (missing_values st).2 = st ∧
    (value_counts c lim st).2 = st ∧
    (correlation_matrix m st).2 = st ∧
    (plot k x y hexId st).2 =
      (match (plot k x y hexId st).1 with
       | .ok f => { st with files := st.files ++ [f] }
       | .error _ => st) := by
  refine ⟨?_, ?_, ?_, ?_, ?_, ?_, ?_, ?_⟩
  · unfold dataset_summary
    split <;> rfl
  · unfold sample_rows
    split <;> rfl
  · unfold find_columns
    (repeat' (first | split | dsimp only)) <;> rfl
  · unfold describe_columns
    (repeat' (first | split | dsimp only)) <;> rfl
  · unfold missing_values
    split <;> rfl
  · unfold value_counts
    (repeat' (first | split | dsimp only)) <;> rfl
  · unfold correlation_matrix
    (repeat' (first | split | dsimp only)) <;> rfl
  · cases hdf : st.df with
    | none => simp [plot, hdf]
    | some df =>
        simp only [plot, hdf]
        split_ifs <;> simp

/-! ### Lemmas about `value_counts` (claims C5 and C10) -/

/-- Every value listed by `firstSeen` occurs in the list. -/
theorem mem_of_mem_firstSeen {v : Value} {xs : List Value} :
    v ∈ firstSeen xs → v ∈ xs := by
  induction xs using firstSeen.induct with
  | case1 => simp [firstSeen]
  | case2 w vs ih =>
      intro h
      rw [firstSeen] at h
      rcases List.mem_cons.mp h with h1 | h2
      · exact h1 ▸ List.mem_cons_self _ _
      · exact List.mem_cons_of_mem _ (List.mem_of_mem_filter (ih h2))

/-- Every value occurring in the list is listed by `firstSeen`. -/
theorem mem_firstSeen_of_mem {v : Value} {xs : List Value} :
    v ∈ xs → v ∈ firstSeen xs := by
  induction xs using firstSeen.induct with
  | case1 => simp
  | case2 w vs ih =>
      intro h
      rw [firstSeen]
      by_cases hv : v = w
      · simp [hv]
      · rcases List.mem_cons.mp h with h1 | h2
        · exact absurd h1 hv
        · refine List.mem_cons_of_mem _ (ih ?_)
          refine List.mem_filter.mpr ⟨h2, ?_⟩
          simpa using hv

/-- The multiplicities of the distinct values of a list sum to its length. -/
theorem firstSeen_count_sum (xs : List Value) :
    ((firstSeen xs).map (fun v => xs.count v)).sum = xs.length := by
  induction xs using firstSeen.induct with
  | case1 => simp [firstSeen]
  | case2 v vs ih =>
      rw [firstSeen]
      simp only [List.map_cons, List.sum_cons]
      have hmap : (firstSeen (vs.filter (fun w => !(w == v)))).map
            (fun w => (v :: vs).count w)
          = (firstSeen (vs.filter (fun w => !(w == v)))).map
            (fun w => (vs.filter (fun w => !(w == v))).count w) := by
        apply List.map_congr_left
        intro w hw
        have hwv : (w == v) = false := by
          have hmem := List.mem_filter.mp (mem_of_mem_firstSeen hw)
          simpa using hmem.2
        have hvw : (v == w) = false := by
          rw [beq_eq_false_iff_ne] at hwv ⊢
          exact fun e => hwv e.symm
        rw [List.count_cons]
        rw [List.count_filter (by simpa using hwv)]
        simp [hvw]
      rw [hmap, ih]
      have hlen : vs.length = vs.countP (· == v) +
          (vs.filter (fun w => !(w == v))).length := by
        rw [← List.countP_eq_length_filter]
        have := List.length_eq_countP_add_countP (· == v) (l := vs)
        rw [this]
        congr 1
        apply List.countP_congr
        intro a _
        cases h : a == v <;> simp [h]
      have hcount : (v :: vs).count v = vs.count v + 1 := by
        simp [List.count_cons]
      rw [hcount, List.count_eq_countP]
      simp only [List.length_cons]
      omega

/-- Keys of a Python dict stay distinct. -/
def NodupKeys {β : Type} (d : List (String × β)) : Prop :=
  (d.map Prod.fst).Nodup

/-- `pyDictInsert` grows the dict by at most one entry. -/
theorem pyDictInsert_length {β : Type} (d : List (String × β)) (k : String) (v : β) :
    (pyDictInsert d k v).length ≤ d.length + 1 := by
  unfold pyDictInsert
  split <;> simp

/-- `pyDictInsert` preserves distinctness of keys. -/
theorem pyDictInsert_nodup {β : Type} {d : List (String × β)} (h : NodupKeys d)
    (k : String) (v : β) : NodupKeys (pyDictInsert d k v) := by
  unfold pyDictInsert
  split
  · unfold NodupKeys
    rw [List.map_map]
    have : d.map (Prod.fst ∘ fun p => if p.1 == k then (k, v) else p) = d.map Prod.fst := by
      apply List.map_congr_left
      intro p _
      by_cases hpk : p.1 = k
      · simp [hpk]
      · simp [hpk]
    rw [this]
    exact h
  · rename_i hany
    unfold NodupKeys
    rw [List.map_append]
    have hk : k ∉ d.map Prod.fst := by
      intro hmem
      apply hany
      obtain ⟨p, hp, hpk⟩ := List.mem_map.mp hmem
      exact List.any_eq_true.mpr ⟨p, hp, by simp [hpk]⟩
    simp only [List.map_cons, List.map_nil]
    exact List.Nodup.append h (List.nodup_singleton k) (by simpa using hk)

/-- Updating the (unique) entry of a key adds at most the new value to the
sum of a dict's values. -/
theorem mapUpdate_sum {d : List (String × Nat)} (h : NodupKeys d) (k : String) (v : Nat) :
    ((d.map (fun p => if p.1 == k then (k, v) else p)).map Prod.snd).sum ≤
      (d.map Prod.snd).sum + v := by
  induction d with
  | nil => simp
  | cons p rest ih =>
      have hrest : NodupKeys rest := by
        unfold NodupKeys at h ⊢
        exact (List.nodup_cons.mp h).2
      by_cases hpk : p.1 = k
      · have hid : rest.map (fun q => if q.1 == k then (k, v) else q) = rest := by
          have hnk : ∀ q ∈ rest, q.1 ≠ k := by
            intro q hq hqk
            have hnotin := (List.nodup_cons.mp h).1
            apply hnotin
            rw [hpk, ← hqk]
            exact List.mem_map.mpr ⟨q, hq, rfl⟩
          calc rest.map (fun q => if q.1 == k then (k, v) else q)
              = rest.map (fun q => q) := by
                apply List.map_congr_left
                intro q hq
                simp [hnk q hq]
            _ = rest := List.map_id _
        have hptrue : (p.1 == k) = true := by simp [hpk]
        simp only [List.map_cons, hptrue, if_true, hid, List.sum_cons]
        omega
      · have hpfalse : (p.1 == k) = false := by simp [hpk]
        simp only [List.map_cons, hpfalse, Bool.false_eq_true, if_false, List.sum_cons]
        have := ih hrest
        omega

/-- `pyDictInsert` adds at most the inserted value to the sum of a dict's
values. -/
theorem pyDictInsert_sum {d : List (String × Nat)} (h : NodupKeys d) (k : String) (v : Nat) :
    ((pyDictInsert d k v).map Prod.snd).sum ≤ (d.map Prod.snd).sum + v := by
  unfold pyDictInsert
  split
  · exact mapUpdate_sum h k v
  · simp

/-- A Python dict has at most as many entries as the pair sequence that
built it. -/
theorem pyDict_length {β : Type} (ps : List (String × β)) :
    (pyDict ps).length ≤ ps.length := by
  have aux : ∀ (qs : List (String × β)) (d : List (String × β)),
      (qs.foldl (fun d p => pyDictInsert d p.1 p.2) d).length ≤ d.length + qs.length := by
    intro qs
    induction qs with
    | nil => intro d; simp
    | cons p rest ih =>
        intro d
        calc (List.foldl (fun d p => pyDictInsert d p.1 p.2) (pyDictInsert d p.1 p.2) rest).length
            ≤ (pyDictInsert d p.1 p.2).length + rest.length := ih _
          _ ≤ (d.length + 1) + rest.length := by
              have := pyDictInsert_length d p.1 p.2
              omega
          _ = d.length + (p :: rest).length := by simp; omega
  simpa using aux ps []

/-- The `pyDict` of a pair sequence keeps its keys distinct. -/
theorem pyDict_nodup {β : Type} (ps : List (String × β)) : NodupKeys (pyDict ps) := by
  have aux : ∀ (qs : List (String × β)) (d : List (String × β)), NodupKeys d →
      NodupKeys (qs.foldl (fun d p => pyDictInsert d p.1 p.2) d) := by
    intro qs
    induction qs with
    | nil => intro d hd; simpa using hd
    | cons p rest ih =>
        intro d hd
        exact ih _ (pyDictInsert_nodup hd p.1 p.2)
  exact aux ps [] (by simp [NodupKeys])

/-- The values of a Python dict sum to at most the values of the pair
sequence that built it. -/
theorem pyDict_sum (ps : List (String × Nat)) :
    ((pyDict ps).map Prod.snd).sum ≤ (ps.map Prod.snd).sum := by
  have aux : ∀ (qs : List (String × Nat)) (d : List (String × Nat)), NodupKeys d →
      ((qs.foldl (fun d p => pyDictInsert d p.1 p.2) d).map Prod.snd).sum ≤
        (d.map Prod.snd).sum + (qs.map Prod.snd).sum := by
    intro qs
    induction qs with
    | nil => intro d _; simp
    | cons p rest ih =>
        intro d hd
        calc ((List.foldl (fun d p => pyDictInsert d p.1 p.2)
                (pyDictInsert d p.1 p.2) rest).map Prod.snd).sum
            ≤ ((pyDictInsert d p.1 p.2).map Prod.snd).sum + (rest.map Prod.snd).sum :=
              ih _ (pyDictInsert_nodup hd p.1 p.2)
          _ ≤ ((d.map Prod.snd).sum + p.2) + (rest.map Prod.snd).sum := by
              have := pyDictInsert_sum hd p.1 p.2
              omega
          _ = (d.map Prod.snd).sum + ((p :: rest).map Prod.snd).sum := by simp; omega
  have := aux ps [] (by simp [NodupKeys])
  simpa using this

/-- The sum of a prefix is at most the sum of the whole list. -/
theorem take_sum_le (l : List Nat) (n : Nat) : (l.take n).sum ≤ l.sum := by
  conv_rhs => rw [← List.take_append_drop n l]
  rw [List.sum_append]
  omega

/-- The counts of `sortedTally` sum to the length of the list. -/
theorem sortedTally_sum (xs : List Value) :
    ((sortedTally xs).map Prod.snd).sum = xs.length := by
  have hperm : (sortedTally xs).Perm (tally xs) := List.mergeSort_perm _ _
  have := (hperm.map Prod.snd).sum_eq
  rw [this]
  unfold tally
  rw [List.map_map]
  exact firstSeen_count_sum xs

/-- C5: for every loaded dataset, existing column and requested limit,
`value_counts(column, limit)` returns a mapping with at most
`max(1, min(limit, 20))` entries whose counts sum to at most the dataset's
row count. -/
theorem value_counts_bounded
    (st : AppState) (df : DataFrame) (c : String) (lim : Int)
    (hdf : st.df = some df) (hcol : df.colNames.contains c = true) :
    ∃ d, (value_counts c lim st).1 = .ok d ∧
      d.length ≤ (max 1 (min lim 20)).toNat ∧
      (d.map Prod.snd).sum ≤ df.rows.length := by
  refine ⟨pyDict (((sortedTally (df.colValues c)).take (max 1 (min lim 20)).toNat).map
      (fun p => (p.1.pyStr, p.2))), ?_, ?_, ?_⟩
  · simp only [value_counts, hdf]
    rw [if_pos hcol]
  · calc (pyDict (((sortedTally (df.colValues c)).take (max 1 (min lim 20)).toNat).map
          (fun p => (p.1.pyStr, p.2)))).length
        ≤ (((sortedTally (df.colValues c)).take (max 1 (min lim 20)).toNat).map
            (fun p => (p.1.pyStr, p.2))).length := pyDict_length _
      _ = ((sortedTally (df.colValues c)).take (max 1 (min lim 20)).toNat).length := by
          rw [List.length_map]
      _ ≤ (max 1 (min lim 20)).toNat := List.length_take_le _ _
  · calc ((pyDict (((sortedTally (df.colValues c)).take (max 1 (min lim 20)).toNat).map
          (fun p => (p.1.pyStr, p.2)))).map Prod.snd).sum
        ≤ ((((sortedTally (df.colValues c)).take (max 1 (min lim 20)).toNat).map
            (fun p => (p.1.pyStr, p.2))).map Prod.snd).sum := pyDict_sum _
      _ = (((sortedTally (df.colValues c)).take (max 1 (min lim 20)).toNat).map
            Prod.snd).sum := by
          rw [List.map_map]
          rfl
      _ = (((sortedTally (df.colValues c)).map Prod.snd).take
            (max 1 (min lim 20)).toNat).sum := by
          rw [List.map_take]
      _ ≤ ((sortedTally (df.colValues c)).map Prod.snd).sum := take_sum_le _ _
      _ = (df.colValues c).length := sortedTally_sum _
      _ = df.rows.length := by simp [DataFrame.colValues]

/-- Witness for C5 at a concrete state, column and limit. -/
theorem value_counts_bounded_witness :
    ∃ d, (value_counts "a" 5 stTiny).1 = .ok d ∧
      d.length ≤ (max 1 (min (5 : Int) 20)).toNat ∧
      (d.map Prod.snd).sum ≤ dfTiny.rows.length :=
  value_counts_bounded stTiny dfTiny "a" 5 rfl (by decide)

/-- C10: `value_counts` counts missing entries as their own category
(`dropna=False`): for every loaded dataset and existing column, the counts
over all distinct values before the top-N cut sum to exactly the row count,
and a missing value present in the column appears among the counted keys. -/
theorem value_counts_precut_sum
    (st : AppState) (df : DataFrame) (c : String)
    (hdf : st.df = some df) (hcol : df.colNames.contains c = true) :
    ((sortedTally (df.colValues c)).map Prod.snd).sum = df.rows.length ∧
    (Value.null ∈ df.colValues c →
      Value.null ∈ (sortedTally (df.colValues c)).map Prod.fst) := by
  constructor
  · rw [sortedTally_sum]
    simp [DataFrame.colValues]
  · intro hnull
    have h1 : Value.null ∈ firstSeen (df.colValues c) := mem_firstSeen_of_mem hnull
    have h2 : Value.null ∈ (tally (df.colValues c)).map Prod.fst := by
      unfold tally
      rw [List.map_map]
      simpa using h1
    have hperm : ((sortedTally (df.colValues c)).map Prod.fst).Perm
        ((tally (df.colValues c)).map Prod.fst) :=
      (List.mergeSort_perm _ _).map Prod.fst
    exact hperm.mem_iff.mpr h2

/-- Witness for C10 at a concrete dataset containing a missing value. -/
theorem value_counts_precut_sum_witness :
    ((sortedTally (dfNull.colValues "a")).map Prod.snd).sum = dfNull.rows.length ∧
    (Value.null ∈ dfNull.colValues "a" →
      Value.null ∈ (sortedTally (dfNull.colValues "a")).map Prod.fst) :=
  value_counts_precut_sum stNull dfNull "a" rfl (by decide)

/-! ### Lemmas about the artifact extractor (claim C2) -/

/-- If the raw-path scan finds nothing, no suffix of the text matches the
raw-path pattern. -/
theorem findPlotPathsF_nil : ∀ (fuel : Nat) (s : List Char), s.length ≤ fuel →
    findPlotPathsF fuel s = [] → ∀ k, matchPlotAt (s.drop k) = none := by
  intro fuel
  induction fuel with
  | zero =>
      intro s hl _ k
      have hs : s = [] := List.length_eq_zero.mp (Nat.le_zero.mp hl)
      subst hs
      rw [List.drop_nil]
      decide
  | succ f ih =>
      intro s hl h k
      cases s with
      | nil =>
          rw [List.drop_nil]
          decide
      | cons c rest =>
          rw [findPlotPathsF] at h
          cases hm : matchPlotAt (c :: rest) with
          | some n => rw [hm] at h; simp at h
          | none =>
              rw [hm] at h
              cases k with
              | zero => simpa using hm
              | succ k2 =>
                  rw [List.drop_succ_cons]
                  have hr : rest.length ≤ f := by
                    simp only [List.length_cons] at hl
                    omega
                  exact ih rest hr h k2

/-- If no suffix matches the raw-path pattern, the sandbox-wrapped scan finds
nothing either (its capture group is exactly the raw-path pattern). -/
theorem findSandboxPathsF_nil : ∀ (fuel : Nat) (s : List Char),
    (∀ k, matchPlotAt (s.drop k) = none) → findSandboxPathsF fuel s = [] := by
  intro fuel
  induction fuel with
  | zero => intro s _; rfl
  | succ f ih =>
      intro s h
      cases s with
      | nil => rfl
      | cons c rest =>
          rw [findSandboxPathsF]
          have hsb : matchSandboxAt (c :: rest) = none := by
            unfold matchSandboxAt
            split
            · rw [h 8]
            · rfl
          rw [hsb]
          exact ih rest (fun k => by
            have hk := h (k + 1)
            rwa [List.drop_succ_cons] at hk)

/-- Every path the raw-path scan reports is the matched span of some suffix. -/
theorem findPlotPathsF_head : ∀ (fuel : Nat) (s m : List Char) (ms : List (List Char)),
    findPlotPathsF fuel s = m :: ms → ∃ t n, matchPlotAt t = some n ∧ m = t.take n := by
  intro fuel
  induction fuel with
  | zero => intro s m ms h; simp [findPlotPathsF] at h
  | succ f ih =>
      intro s m ms h
      cases s with
      | nil => simp [findPlotPathsF] at h
      | cons c rest =>
          rw [findPlotPathsF] at h
          cases hm : matchPlotAt (c :: rest) with
          | some n =>
              rw [hm] at h
              simp only [List.cons.injEq] at h
              exact ⟨c :: rest, n, hm, h.1.symm⟩
          | none =>
              rw [hm] at h
              exact ih rest m ms h

/-- The span matched by the raw-path pattern decomposes into the literal
prefix, the hex run and the literal extension. -/
theorem matchPlotAt_take_eq {s : List Char} {n : Nat} (h : matchPlotAt s = some n) :
    s.take n = "/tmp/plot_".toList ++ (s.drop 10).takeWhile hexOrDigit ++ ".png".toList := by
  unfold matchPlotAt at h
  split at h
  case isTrue h10 =>
    split at h
    case isTrue hcond =>
      simp only [Option.some.injEq] at h
      subst h
      obtain ⟨hlen, hpng⟩ := hcond
      rw [List.take_add, List.take_add, h10]
      rw [← List.prefix_iff_eq_take.mp (List.takeWhile_prefix _), hpng]
    case isFalse => simp at h
  case isFalse => simp at h

/-- A span matched by the raw-path pattern never contains the character
`s`, so removing the `sandbox:` wrapper from it is the identity. -/
theorem matchPlotAt_no_s {s : List Char} {n : Nat} (h : matchPlotAt s = some n) :
    's' ∉ s.take n := by
  rw [matchPlotAt_take_eq h]
  intro hmem
  rcases List.mem_append.mp hmem with h1 | h2
  · rcases List.mem_append.mp h1 with h3 | h4
    · exact absurd h3 (by decide)
    · exact absurd (List.mem_takeWhile_imp h4) (by decide)
  · exact absurd h2 (by decide)

/-- `replace("sandbox:", "")` is the identity on text without an `s`. -/
theorem replaceSandboxF_id : ∀ (fuel : Nat) (l : List Char), 's' ∉ l →
    replaceSandboxF fuel l = l := by
  intro fuel
  induction fuel with
  | zero => intro l _; rfl
  | succ f ih =>
      intro l hl
      cases l with
      | nil => rfl
      | cons c rest =>
          rw [replaceSandboxF]
          have hc : ¬((c :: rest).take 8 = "sandbox:".toList) := by
            intro he
            apply hl
            have hmem : 's' ∈ (c :: rest).take 8 := by
              rw [he]
              decide
            exact List.take_subset _ _ hmem
          rw [if_neg hc]
          rw [ih rest (fun hm => hl (List.mem_cons_of_mem _ hm))]

/-- C2 (amended): the extractor honors the first raw-path match — if there is
none, the text is returned unchanged with no artifact (the sandbox-wrapped
pattern can never fire alone, since its capture group is the raw-path
pattern); if there is one, it is returned verbatim as the artifact path (it
never contains a `sandbox:` prefix to remove), and the display text is the
original text with only the sandbox-prefixed markdown images and the
sandbox-prefixed paths stripped and whitespace trimmed, the fixed fallback
caption substituting when nothing remains.  A raw path outside those two
sandbox forms remains in the display text.  In particular,
`"![chart](sandbox:/tmp/plot_ab12cd.png)"` yields the path
`/tmp/plot_ab12cd.png` and the fallback caption. -/
theorem chat_extract_artifact (s : List Char) :
    extractArtifact s =
      (match findPlotPaths s with
       | [] => (s, none)
       | m :: _ =>
           (if pyStrip (subSbPlot (subMd s)) = [] then fallbackCaption
            else pyStrip (subSbPlot (subMd s)), some m)) ∧
    extractArtifact ("![chart](sandbox:/tmp/plot_ab12cd.png)".toList) =
      (fallbackCaption, some ("/tmp/plot_ab12cd.png".toList)) := by
  constructor
  · cases h : findPlotPaths s with
    | nil =>
        have hall : ∀ k, matchPlotAt (s.drop k) = none :=
          findPlotPathsF_nil s.length s (le_refl _) h
        have hsb : findSandboxPaths s = [] :=
          findSandboxPathsF_nil s.length s hall
        simp only [extractArtifact, h, hsb]
    | cons m ms =>
        obtain ⟨t, nn, hmt, hmeq⟩ := findPlotPathsF_head s.length s m ms h
        have hnos : 's' ∉ m := hmeq ▸ matchPlotAt_no_s hmt
        have hrep : replaceSandbox m = m := replaceSandboxF_id m.length m hnos
        simp only [extractArtifact, h, hrep]
  · decide

/-- C2 counterexample: on `"See /tmp/plot_ab.png"` the extractor returns the
path, but the display text still contains the matched path substring — it is
not the claimed stripped-and-trimmed text `"See"`. -/
theorem chat_extract_claim_cex :
    extractArtifact ("See /tmp/plot_ab.png".toList) =
      ("See /tmp/plot_ab.png".toList, some ("/tmp/plot_ab.png".toList)) ∧
    containsSeq ("/tmp/plot_ab.png".toList) ("See /tmp/plot_ab.png".toList) = true ∧
    "See /tmp/plot_ab.png".toList ≠ ("See".toList : List Char) :=
  ⟨by decide, by decide, by decide⟩
